import Mathlib

/-!
# Verification of the Video-translator backend (`src/backend/app.py`)

Shallow embedding of the Flask backend in `src/backend/app.py`.  The
program keeps two SQL tables (`User`, `TranslationJob`) and exposes
routes `POST /api/users` (`create_user`), `POST /api/upload`
(`upload_file`), `POST /api/translate` (`start_translation`) and
`GET /api/jobs/<id>` (`get_job_status`).

Modelling conventions:
* The database is a state record `AppState` holding the two tables as
  lists plus the autoincrement counters; SQLAlchemy primary keys are
  modelled as `Nat` counters (`nextUserId`, `nextJobId`).
* `created_at` timestamps are wall-clock metadata that no claim touches;
  they are omitted from the records.
* Request JSON/form fields that may be absent are `Option` arguments
  (`none` = the field is missing from the request).
* The environment variable `HEYGEN_API_KEY` (read once at line 24 of the
  source) is the `Option String` argument of `start_translation`.
* `db.session.commit()` inside a `try` block can raise; the Boolean
  argument `commitOk`/`saveOk` selects the success or the `except`
  branch.  The simulated provider submission point (lines 219-220 of the
  source) is reached exactly when the `try` block of `start_translation`
  commits successfully; the `submissions` counter of the state counts how
  often execution reaches that point.
-/

/-- Row of the `User` table (source lines 30-40): autoincrement `id` and a
unique `email`. -/
structure User where
  id : Nat
  email : String
deriving Repr, DecidableEq

/-- Row of the `TranslationJob` table (source lines 42-58): `target_language`
is nullable, `status` is a free-form string defaulting to `"uploaded"`. -/
structure TranslationJob where
  id : Nat
  user_id : Nat
  original_filename : String
  target_language : Option String
  status : String
deriving Repr, DecidableEq

/-- The whole mutable state of the backend: the two tables, the
autoincrement counters, and the count of provider submissions performed. -/
structure AppState where
  users : List User
  jobs : List TranslationJob
  nextUserId : Nat
  nextJobId : Nat
  submissions : Nat
deriving Repr, DecidableEq

/-- The freshly created database (`db.create_all()` on an empty file). -/
def initState : AppState :=
  { users := [], jobs := [], nextUserId := 1, nextJobId := 1, submissions := 0 }

/-- The supported-language list advertised by the backend (source lines
86 and 197). -/
def supported_languages : List String :=
  ["es", "fr", "de", "it", "pt", "ru", "ja", "ko", "zh", "hi"]

/-- The error responses the routes can return, one constructor per
distinct error payload in the source.  `invalidTransition` carries the
job's actual status (the f-string at line 210); `translationFailedToStart`
carries the job's final record (the 500 body at lines 234-238 includes
`job.to_dict()`). -/
inductive ApiError where
  | emailRequired
  | userAlreadyExists
  | userIdRequired
  | userNotFound
  | noFileProvided
  | noFileSelected
  | uploadFailed
  | heygenNotConfigured
  | missingJobFields
  | jobNotFound
  | invalidTransition (actual : String)
  | translationFailedToStart (job : TranslationJob)
deriving Repr, DecidableEq

/-- `User.query.get(uid)`: primary-key lookup in the `User` table. -/
def findUser (s : AppState) (uid : Nat) : Option User :=
  s.users.find? (fun u => u.id = uid)

/-- `TranslationJob.query.get(jid)`: primary-key lookup in the
`TranslationJob` table. -/
def findJob (s : AppState) (jid : Nat) : Option TranslationJob :=
  s.jobs.find? (fun j => j.id = jid)

/-- Committing a mutation of an existing job row: every row whose primary
key equals `j.id` is replaced by `j`. -/
def setJob (s : AppState) (j : TranslationJob) : AppState :=
  { s with jobs := s.jobs.map (fun x => if x.id = j.id then j else x) }

/-- `POST /api/users` (source lines 99-117): requires an `email` field,
rejects a duplicate email (`User.query.filter_by(email=...).first()`),
otherwise inserts a fresh `User` row. -/
def create_user (s : AppState) (email? : Option String) :
    Except ApiError User × AppState :=
  match email? with
  | none => (.error .emailRequired, s)
  | some email =>
    match s.users.find? (fun u => u.email = email) with
    | some _ => (.error .userAlreadyExists, s)
    | none =>
      let u : User := { id := s.nextUserId, email := email }
      (.ok u, { s with users := s.users ++ [u], nextUserId := s.nextUserId + 1 })

/-- `POST /api/upload` (source lines 138-180): requires `user_id`, an
existing user, a `file` part with a non-empty filename; then saves the
file and inserts a job with status `"uploaded"` and null
`target_language`.  `saveOk = false` is the `except` branch of the
`try` (file save or commit raising): nothing is persisted. -/
def upload_file (s : AppState) (user_id? : Option Nat) (file? : Option String)
    (saveOk : Bool) : Except ApiError TranslationJob × AppState :=
  match user_id? with
  | none => (.error .userIdRequired, s)
  | some uid =>
    match findUser s uid with
    | none => (.error .userNotFound, s)
    | some _ =>
      match file? with
      | none => (.error .noFileProvided, s)
      | some filename =>
        if filename = "" then (.error .noFileSelected, s)
        else if saveOk then
          let job : TranslationJob :=
            { id := s.nextJobId, user_id := uid, original_filename := filename,
              target_language := none, status := "uploaded" }
          (.ok job, { s with jobs := s.jobs ++ [job], nextJobId := s.nextJobId + 1 })
        else (.error .uploadFailed, s)

/-- Source lines 204-211 of `start_translation`: read the job row and
check the `uploaded` precondition, without mutating anything. -/
def st_precheck (s : AppState) (jid : Nat) : Except ApiError TranslationJob :=
  match findJob s jid with
  | none => .error .jobNotFound
  | some job =>
    if job.status ≠ "uploaded" then .error (.invalidTransition job.status)
    else .ok job

/-- Source lines 214-220 of `start_translation`, success path: set
`status = "processing"` and `target_language`, commit, and reach the
(simulated) provider submission point, counted in `submissions`. -/
def st_commitSuccess (s : AppState) (job : TranslationJob) (lang : String) :
    TranslationJob × AppState :=
  let j : TranslationJob := { job with status := "processing", target_language := some lang }
  (j, { setJob s j with submissions := s.submissions + 1 })

/-- Source lines 230-238 of `start_translation`, `except` branch: the
commit raised after `status = "processing"` and `target_language` were
assigned in memory (lines 215-216), so the handler overwrites
`status = "failed"` and commits that; `target_language` keeps the value
assigned at line 216. -/
def st_commitFailure (s : AppState) (job : TranslationJob) (lang : String) :
    TranslationJob × AppState :=
  let j : TranslationJob := { job with status := "failed", target_language := some lang }
  (j, setJob s j)

/-- `POST /api/translate` (source lines 182-238): the `HEYGEN_API_KEY`
check comes first (lines 186-190), then the structural field check
(lines 194-198), then the job lookup and status precheck, then the
commit, whose outcome `commitOk` selects the success path or the
`except` branch.  No supported-language membership check appears
anywhere on this route. -/
def start_translation (apiKey : Option String) (s : AppState)
    (data? : Option (Nat × String)) (commitOk : Bool) :
    Except ApiError TranslationJob × AppState :=
  match apiKey with
  | none => (.error .heygenNotConfigured, s)
  | some _ =>
    match data? with
    | none => (.error .missingJobFields, s)
    | some (jid, lang) =>
      match st_precheck s jid with
      | .error e => (.error e, s)
      | .ok job =>
        if commitOk then
          let r := st_commitSuccess s job lang
          (.ok r.1, r.2)
        else
          let r := st_commitFailure s job lang
          (.error (.translationFailedToStart r.1), r.2)

/-- `GET /api/jobs/<id>` (source lines 127-136): pure read. -/
def get_job_status (s : AppState) (jid : Nat) : Except ApiError TranslationJob :=
  match findJob s jid with
  | none => .error .jobNotFound
  | some job => .ok job

/-- Outcome reported by the external translation provider. -/
inductive ProviderOutcome where
  | completed
  | failed (reason : String)
deriving Repr, DecidableEq

/-- Modelled from the spec: the source has no `ApplyProviderOutcome`
implementation at all (the provider call is simulated and no callback or
poll route exists), so this operation is taken from spec section 4.2
operation 3: precondition job exists and `status == "processing"`; a
late or duplicate outcome on a job already `completed`/`failed` is
accepted idempotently, returning the already-terminal job unchanged;
otherwise the status becomes `completed` or `failed` according to the
outcome.  The failure reason the spec records for diagnostics has no
column in the source's `TranslationJob` schema and is not tracked. -/
def apply_provider_outcome (s : AppState) (jid : Nat) (outcome : ProviderOutcome) :
    Except ApiError TranslationJob × AppState :=
  match findJob s jid with
  | none => (.error .jobNotFound, s)
  | some job =>
    if job.status = "completed" ∨ job.status = "failed" then (.ok job, s)
    else if job.status = "processing" then
      let j : TranslationJob :=
        match outcome with
        | .completed => { job with status := "completed" }
        | .failed _ => { job with status := "failed" }
      (.ok j, setJob s j)
    else (.error (.invalidTransition job.status), s)

/-- One client-visible operation against the backend, with the request
data and environment the route reads. -/
inductive Op where
  | createUser (email? : Option String)
  | registerUpload (user_id? : Option Nat) (file? : Option String) (saveOk : Bool)
  | requestTranslation (apiKey : Option String) (data? : Option (Nat × String)) (commitOk : Bool)
  | applyOutcome (jid : Nat) (outcome : ProviderOutcome)
  | getJob (jid : Nat)
deriving Repr, DecidableEq

/-- The state after serving one operation. -/
def step (s : AppState) : Op → AppState
  | .createUser e => (create_user s e).2
  | .registerUpload u f ok => (upload_file s u f ok).2
  | .requestTranslation k d c => (start_translation k s d c).2
  | .applyOutcome j o => (apply_provider_outcome s j o).2
  | .getJob _ => s

/-- The state after serving a sequence of operations in order. -/
def run (s : AppState) (ops : List Op) : AppState :=
  ops.foldl step s

/-- The status strings of the lifecycle state machine. -/
def okStatuses : List String := ["uploaded", "processing", "completed", "failed"]

/-- The legal edges of the lifecycle graph:
`uploaded → processing → completed | failed`. -/
def edge (a b : String) : Bool :=
  (a = "uploaded" && b = "processing") ||
  (a = "processing" && b = "completed") ||
  (a = "processing" && b = "failed")

/-- A status change performed by one operation follows the graph: it is
a stutter, a single edge, or two consecutive edges applied back to back
within the operation (the synchronous-failure path of
`start_translation` assigns `"processing"` at line 215 and then
`"failed"` in the `except` handler at line 231, each assignment being an
edge of the graph). -/
def followsEdges (a b : String) : Prop :=
  a = b ∨ edge a b = true ∨ ∃ m, edge a m = true ∧ edge m b = true

/-- Well-formedness of one job row: the status is one of the four
lifecycle states, and `target_language` is null exactly when the job is
still in status `"uploaded"`. -/
def JobWf (j : TranslationJob) : Prop :=
  j.status ∈ okStatuses ∧ (j.target_language = none ↔ j.status = "uploaded")

/-- Well-formedness of the whole state: every job row is well formed and
no two user rows share an email. -/
def StateWf (s : AppState) : Prop :=
  (∀ j ∈ s.jobs, JobWf j) ∧ s.users.Pairwise (fun a b => a.email ≠ b.email)

/-- A run reaching one user (id 1) and one freshly uploaded job (id 1):
`create_user("a@b.c")` followed by a successful `upload_file`. -/
def exOps : List Op :=
  [Op.createUser (some "a@b.c"), Op.registerUpload (some 1) (some "clip.mp4") true]

/-- The state after `exOps`. -/
def exState : AppState := run initState exOps

/-- The state after `exOps`: just the user, before any upload. -/
def exUserState : AppState := run initState [Op.createUser (some "a@b.c")]

/-- Job 1 of `exState`, still in status `"uploaded"`. -/
def exJobUploaded : TranslationJob :=
  { id := 1, user_id := 1, original_filename := "clip.mp4",
    target_language := none, status := "uploaded" }

/-- Job 1 after a successful translate request toward `"es"`. -/
def exJobProcessing : TranslationJob :=
  { id := 1, user_id := 1, original_filename := "clip.mp4",
    target_language := some "es", status := "processing" }

/-- Job 1 after the provider reports completion. -/
def exJobCompleted : TranslationJob :=
  { id := 1, user_id := 1, original_filename := "clip.mp4",
    target_language := some "es", status := "completed" }

/-- `exState` after a successful `POST /api/translate` for job 1. -/
def exStateProcessing : AppState :=
  run initState (exOps ++ [Op.requestTranslation (some "key") (some (1, "es")) true])

/-- `exStateProcessing` after the provider outcome `completed` is applied. -/
def exStateCompleted : AppState :=
  run initState (exOps ++ [Op.requestTranslation (some "key") (some (1, "es")) true,
    Op.applyOutcome 1 ProviderOutcome.completed])

/-- Two `POST /api/translate` requests for the same job served in
parallel, interleaved so that both execute the read-and-check of source
lines 204-211 against the same state before either runs the commit of
lines 214-217 (the route has no lock, transaction guard or atomic
compare-and-set, so this interleaving is possible under a concurrent
server).  The second writer applies its commit to the state left by the
first. -/
def raceTwoStarts (s : AppState) (jid : Nat) (lA lB : String) :
    Except ApiError TranslationJob × Except ApiError TranslationJob × AppState :=
  match st_precheck s jid, st_precheck s jid with
  | .ok jA, .ok jB =>
    let rA := st_commitSuccess s jA lA
    let rB := st_commitSuccess rA.2 jB lB
    (.ok rA.1, .ok rB.1, rB.2)
  | .ok jA, .error eB =>
    let rA := st_commitSuccess s jA lA
    (.ok rA.1, .error eB, rA.2)
  | .error eA, .ok jB =>
    let rB := st_commitSuccess s jB lB
    (.error eA, .ok rB.1, rB.2)
  | .error eA, .error eB => (.error eA, .error eB, s)

/-! ## Basic lemmas about lookups and updates -/

theorem findJob_some_id {s : AppState} {jid : Nat} {j : TranslationJob}
    (h : findJob s jid = some j) : j.id = jid := by
  have hp := List.find?_some h
  simpa using hp

theorem findJob_mem {s : AppState} {jid : Nat} {j : TranslationJob}
    (h : findJob s jid = some j) : j ∈ s.jobs :=
  List.mem_of_find?_eq_some h

theorem findJob_setJob (s : AppState) (jP : TranslationJob) (jid : Nat) :
    findJob (setJob s jP) jid =
      (findJob s jid).map (fun x => if x.id = jP.id then jP else x) := by
  unfold findJob setJob
  rw [List.find?_map]
  have hcong : ((fun x : TranslationJob => decide (x.id = jid)) ∘
      (fun x => if x.id = jP.id then jP else x)) =
      (fun x : TranslationJob => decide (x.id = jid)) := by
    funext x
    by_cases h : x.id = jP.id <;> simp [Function.comp, h]
  simp only [Function.comp] at hcong ⊢
  rw [hcong]

theorem findJob_append_left {s : AppState} {jid : Nat} {j : TranslationJob}
    (more : List TranslationJob) (h : findJob s jid = some j) :
    ({ s with jobs := s.jobs ++ more, nextJobId := s.nextJobId + 1 } :
      AppState).jobs.find? (fun x => x.id = jid) = some j := by
  show (s.jobs ++ more).find? _ = some j
  rw [List.find?_append]
  unfold findJob at h
  rw [h]
  rfl

theorem st_precheck_ok_inv {s : AppState} {jid : Nat} {j : TranslationJob}
    (h : st_precheck s jid = .ok j) :
    findJob s jid = some j ∧ j.status = "uploaded" := by
  unfold st_precheck at h
  split at h
  · cases h
  · next j0 hf =>
    split at h
    · cases h
    · next hstat =>
      injection h with h
      subst h
      exact ⟨hf, by simpa using hstat⟩

/-! ## The inductive invariant of reachable states -/

theorem initState_wf : StateWf initState := by
  constructor
  · intro j hj
    simp [initState] at hj
  · exact List.Pairwise.nil

theorem setJob_jobWf {s : AppState} (hws : ∀ j ∈ s.jobs, JobWf j)
    {jP : TranslationJob} (hwP : JobWf jP) :
    ∀ j ∈ (setJob s jP).jobs, JobWf j := by
  intro y hy
  rcases List.mem_map.mp hy with ⟨x, hx, hxy⟩
  by_cases h : x.id = jP.id
  · rw [← hxy]
    simpa [h] using hwP
  · rw [← hxy]
    simpa [h] using hws x hx

theorem jobWf_mk {job : TranslationJob} (st : String) (tl : Option String)
    (hst : st ∈ okStatuses) (hiff : tl = none ↔ st = "uploaded") :
    JobWf { job with status := st, target_language := tl } :=
  ⟨hst, hiff⟩

theorem create_user_wf {s : AppState} (hs : StateWf s) (e : Option String) :
    StateWf (create_user s e).2 := by
  unfold create_user
  split
  · exact hs
  · next email =>
    split
    · exact hs
    · next hfind =>
      refine ⟨hs.1, ?_⟩
      show List.Pairwise (fun a b : User => a.email ≠ b.email)
        (s.users ++ [({ id := s.nextUserId, email := email } : User)])
      rw [List.pairwise_append]
      refine ⟨hs.2, List.pairwise_singleton _ _, ?_⟩
      intro a ha b hb
      rw [List.mem_singleton] at hb
      subst hb
      intro hEq
      have hnone := List.find?_eq_none.mp hfind a ha
      apply hnone
      simpa using hEq

theorem upload_file_wf {s : AppState} (hs : StateWf s) (u : Option Nat)
    (f : Option String) (k : Bool) : StateWf (upload_file s u f k).2 := by
  unfold upload_file
  split
  · exact hs
  · next uid =>
    split
    · exact hs
    · split
      · exact hs
      · next filename =>
        split
        · exact hs
        · split
          · refine ⟨?_, hs.2⟩
            show ∀ j ∈ s.jobs ++
              [({ id := s.nextJobId, user_id := uid, original_filename := filename,
                  target_language := none, status := "uploaded" } : TranslationJob)], JobWf j
            intro j hj
            rcases List.mem_append.mp hj with hj | hj
            · exact hs.1 j hj
            · rw [List.mem_singleton] at hj
              subst hj
              refine ⟨?_, ?_⟩
              · show ("uploaded" : String) ∈ okStatuses
                decide
              · show (none : Option String) = none ↔ ("uploaded" : String) = "uploaded"
                simp
          · exact hs

theorem start_translation_wf {s : AppState} (hs : StateWf s) (k : Option String)
    (d : Option (Nat × String)) (c : Bool) :
    StateWf (start_translation k s d c).2 := by
  unfold start_translation
  split
  · exact hs
  · split
    · exact hs
    · next jid lang =>
      split
      · exact hs
      · next job hpre =>
        split
        · refine ⟨setJob_jobWf hs.1 (jobWf_mk "processing" (some lang) ?_ ?_), hs.2⟩
          · decide
          · simp
        · refine ⟨setJob_jobWf hs.1 (jobWf_mk "failed" (some lang) ?_ ?_), hs.2⟩
          · decide
          · simp

theorem apply_provider_outcome_wf {s : AppState} (hs : StateWf s) (jid : Nat)
    (o : ProviderOutcome) : StateWf (apply_provider_outcome s jid o).2 := by
  unfold apply_provider_outcome
  split
  · exact hs
  · next job hfind =>
    split
    · exact hs
    · split
      · next hterm hproc =>
        have hw := hs.1 job (findJob_mem hfind)
        have htl : job.target_language ≠ none := by
          intro hnone
          have hup := hw.2.mp hnone
          rw [hproc] at hup
          exact absurd hup (by decide)
        cases o with
        | completed =>
          refine ⟨setJob_jobWf hs.1
            (jobWf_mk "completed" job.target_language ?_ ?_), hs.2⟩
          · decide
          · exact ⟨fun h => absurd h htl, fun h => absurd h (by decide)⟩
        | failed r =>
          refine ⟨setJob_jobWf hs.1
            (jobWf_mk "failed" job.target_language ?_ ?_), hs.2⟩
          · decide
          · exact ⟨fun h => absurd h htl, fun h => absurd h (by decide)⟩
      · exact hs

theorem step_wf {s : AppState} (hs : StateWf s) (op : Op) : StateWf (step s op) := by
  cases op with
  | createUser e => exact create_user_wf hs e
  | registerUpload u f k => exact upload_file_wf hs u f k
  | requestTranslation k d c => exact start_translation_wf hs k d c
  | applyOutcome jid o => exact apply_provider_outcome_wf hs jid o
  | getJob jid => exact hs

theorem run_wf_of (ops : List Op) : ∀ s : AppState, StateWf s → StateWf (run s ops) := by
  induction ops with
  | nil => intro s hs; exact hs
  | cons op t ih => intro s hs; exact ih _ (step_wf hs op)

theorem run_initState_wf (ops : List Op) : StateWf (run initState ops) :=
  run_wf_of ops initState initState_wf

theorem run_append_op (ops : List Op) (op : Op) :
    run initState (ops ++ [op]) = step (run initState ops) op := by
  unfold run
  rw [List.foldl_append]
  rfl

/-! ## How each route changes the job table -/

theorem findJob_setJob_of_found {s : AppState} {jid : Nat} {j : TranslationJob}
    (jP : TranslationJob) (hj : findJob s jid = some j) :
    findJob (setJob s jP) jid = some (if j.id = jP.id then jP else j) := by
  rw [findJob_setJob, hj]
  rfl

theorem findJob_submissions (s : AppState) (n : Nat) (jid : Nat) :
    findJob { s with submissions := n } jid = findJob s jid := rfl

theorem create_user_findJob (s : AppState) (e : Option String) (jid : Nat) :
    findJob (create_user s e).2 jid = findJob s jid := by
  unfold create_user
  split
  · rfl
  · split <;> rfl

theorem upload_file_findJob {s : AppState} {jid : Nat} {j : TranslationJob}
    (u : Option Nat) (f : Option String) (k : Bool)
    (hj : findJob s jid = some j) :
    findJob (upload_file s u f k).2 jid = some j := by
  unfold upload_file
  split
  · exact hj
  · split
    · exact hj
    · split
      · exact hj
      · split
        · exact hj
        · split
          · show ((s.jobs ++ [_]).find? fun x => x.id = jid) = some j
            rw [List.find?_append]
            unfold findJob at hj
            rw [hj]
            rfl
          · exact hj

theorem start_translation_state (k : Option String) (s : AppState)
    (d : Option (Nat × String)) (c : Bool) :
    (start_translation k s d c).2 = s ∨
    ∃ key tjid lang job,
      k = some key ∧ d = some (tjid, lang) ∧
      findJob s tjid = some job ∧ job.status = "uploaded" ∧
      ((c = true ∧ (start_translation k s d c).2 =
          { setJob s { job with status := "processing", target_language := some lang } with
            submissions := s.submissions + 1 }) ∨
       (c = false ∧ (start_translation k s d c).2 =
          setJob s { job with status := "failed", target_language := some lang })) := by
  unfold start_translation
  split
  · exact Or.inl rfl
  · next key =>
    split
    · exact Or.inl rfl
    · next tjid lang =>
      split
      · exact Or.inl rfl
      · next job hpre =>
        have hinv := st_precheck_ok_inv hpre
        cases c with
        | true =>
          exact Or.inr ⟨key, tjid, lang, job, rfl, rfl, hinv.1, hinv.2,
            Or.inl ⟨rfl, rfl⟩⟩
        | false =>
          exact Or.inr ⟨key, tjid, lang, job, rfl, rfl, hinv.1, hinv.2,
            Or.inr ⟨rfl, rfl⟩⟩

theorem apply_provider_outcome_state (s : AppState) (tjid : Nat) (o : ProviderOutcome) :
    (apply_provider_outcome s tjid o).2 = s ∨
    ∃ job, findJob s tjid = some job ∧ job.status = "processing" ∧
      ((o = .completed ∧ (apply_provider_outcome s tjid o).2 =
          setJob s { job with status := "completed" }) ∨
       (∃ r, o = .failed r ∧ (apply_provider_outcome s tjid o).2 =
          setJob s { job with status := "failed" })) := by
  unfold apply_provider_outcome
  split
  · exact Or.inl rfl
  · next job hfind =>
    split
    · exact Or.inl rfl
    · split
      · next hterm hproc =>
        cases o with
        | completed => exact Or.inr ⟨job, hfind, hproc, Or.inl ⟨rfl, rfl⟩⟩
        | failed r => exact Or.inr ⟨job, hfind, hproc, Or.inr ⟨r, rfl, rfl⟩⟩
      · exact Or.inl rfl

/-! ## Evolution of a single job under one operation -/

theorem evolution_stutter {op : Op} {jid : Nat} {j : TranslationJob} :
    followsEdges j.status j.status ∧
      ((j.status = "completed" ∨ j.status = "failed") → j = j) ∧
      (∀ l, j.target_language = some l → j.target_language = some l) ∧
      (j.target_language ≠ j.target_language →
        ∃ key lang c, op = Op.requestTranslation (some key) (some (jid, lang)) c ∧
          j.status = "uploaded" ∧ j.target_language = some lang ∧
          (j.status = "processing" ∨ j.status = "failed")) :=
  ⟨Or.inl rfl, fun _ => rfl, fun _ h => h, fun h => absurd rfl h⟩

theorem step_job_evolution {s : AppState} (hs : StateWf s) (op : Op) {jid : Nat}
    {j j' : TranslationJob} (hj : findJob s jid = some j)
    (hj' : findJob (step s op) jid = some j') :
    followsEdges j.status j'.status ∧
      ((j.status = "completed" ∨ j.status = "failed") → j' = j) ∧
      (∀ l, j.target_language = some l → j'.target_language = some l) ∧
      (j'.target_language ≠ j.target_language →
        ∃ key lang c, op = Op.requestTranslation (some key) (some (jid, lang)) c ∧
          j.status = "uploaded" ∧ j'.target_language = some lang ∧
          (j'.status = "processing" ∨ j'.status = "failed")) := by
  cases op with
  | createUser e =>
    have hj2 : findJob (create_user s e).2 jid = some j' := hj'
    rw [create_user_findJob, hj] at hj2
    injection hj2 with hj2
    subst hj2
    exact evolution_stutter
  | getJob n =>
    have hj2 : findJob s jid = some j' := hj'
    rw [hj] at hj2
    injection hj2 with hj2
    subst hj2
    exact evolution_stutter
  | registerUpload u f k =>
    have hj2 : findJob (upload_file s u f k).2 jid = some j' := hj'
    rw [upload_file_findJob u f k hj] at hj2
    injection hj2 with hj2
    subst hj2
    exact evolution_stutter
  | requestTranslation k d c =>
    have hj2 : findJob (start_translation k s d c).2 jid = some j' := hj'
    rcases start_translation_state k s d c with hstate |
      ⟨key, tjid, lang, job, hk, hd, hfind, hupl, hbranch⟩
    · rw [hstate, hj] at hj2
      injection hj2 with hj2
      subst hj2
      exact evolution_stutter
    · subst hk
      subst hd
      have hwj := hs.1 j (findJob_mem hj)
      rcases hbranch with ⟨hc, hstate⟩ | ⟨hc, hstate⟩
      · subst hc
        rw [hstate] at hj2
        have hj3 : findJob
            (setJob s { job with status := "processing", target_language := some lang })
            jid = some j' := hj2
        rw [findJob_setJob_of_found _ hj] at hj3
        injection hj3 with hj3
        dsimp only at hj3
        by_cases hid : j.id = job.id
        · rw [if_pos hid] at hj3
          have hjj : jid = tjid := by
            rw [← findJob_some_id hj, hid, findJob_some_id hfind]
          have hjeq : j = job := by
            rw [hjj, hfind] at hj
            injection hj with h
            exact h.symm
          subst hj3
          refine ⟨?_, ?_, ?_, ?_⟩
          · show followsEdges j.status "processing"
            rw [hjeq, hupl]
            exact Or.inr (Or.inl (by decide))
          · intro h
            rw [hjeq, hupl] at h
            rcases h with h | h <;> exact absurd h (by decide)
          · intro l hl
            have h0 : j.target_language = none := hwj.2.mpr (by rw [hjeq]; exact hupl)
            rw [h0] at hl
            simp at hl
          · intro hne
            refine ⟨key, lang, true, ?_, ?_, rfl, Or.inl rfl⟩
            · rw [hjj]
            · rw [hjeq]; exact hupl
        · rw [if_neg hid] at hj3
          subst hj3
          exact evolution_stutter
      · subst hc
        rw [hstate] at hj2
        have hj3 : findJob
            (setJob s { job with status := "failed", target_language := some lang })
            jid = some j' := hj2
        rw [findJob_setJob_of_found _ hj] at hj3
        injection hj3 with hj3
        dsimp only at hj3
        by_cases hid : j.id = job.id
        · rw [if_pos hid] at hj3
          have hjj : jid = tjid := by
            rw [← findJob_some_id hj, hid, findJob_some_id hfind]
          have hjeq : j = job := by
            rw [hjj, hfind] at hj
            injection hj with h
            exact h.symm
          subst hj3
          refine ⟨?_, ?_, ?_, ?_⟩
          · show followsEdges j.status "failed"
            rw [hjeq, hupl]
            exact Or.inr (Or.inr ⟨"processing", by decide, by decide⟩)
          · intro h
            rw [hjeq, hupl] at h
            rcases h with h | h <;> exact absurd h (by decide)
          · intro l hl
            have h0 : j.target_language = none := hwj.2.mpr (by rw [hjeq]; exact hupl)
            rw [h0] at hl
            simp at hl
          · intro hne
            refine ⟨key, lang, false, ?_, ?_, rfl, Or.inr rfl⟩
            · rw [hjj]
            · rw [hjeq]; exact hupl
        · rw [if_neg hid] at hj3
          subst hj3
          exact evolution_stutter
  | applyOutcome tjid o =>
    have hj2 : findJob (apply_provider_outcome s tjid o).2 jid = some j' := hj'
    rcases apply_provider_outcome_state s tjid o with hstate |
      ⟨job, hfind, hproc, hbranch⟩
    · rw [hstate, hj] at hj2
      injection hj2 with hj2
      subst hj2
      exact evolution_stutter
    · rcases hbranch with ⟨ho, hstate⟩ | ⟨r, ho, hstate⟩
      · rw [hstate] at hj2
        rw [findJob_setJob_of_found _ hj] at hj2
        injection hj2 with hj2
        dsimp only at hj2
        by_cases hid : j.id = job.id
        · rw [if_pos hid] at hj2
          have hjeq : j = job := by
            rw [← findJob_some_id hj, hid, findJob_some_id hfind, hfind] at hj
            injection hj with h
            exact h.symm
          subst hj2
          refine ⟨?_, ?_, ?_, ?_⟩
          · show followsEdges j.status "completed"
            rw [hjeq, hproc]
            exact Or.inr (Or.inl (by decide))
          · intro h
            rw [hjeq, hproc] at h
            rcases h with h | h <;> exact absurd h (by decide)
          · intro l hl
            show job.target_language = some l
            rw [← hjeq]
            exact hl
          · intro hne
            exact absurd (by rw [hjeq]) hne
        · rw [if_neg hid] at hj2
          subst hj2
          exact evolution_stutter
      · rw [hstate] at hj2
        rw [findJob_setJob_of_found _ hj] at hj2
        injection hj2 with hj2
        dsimp only at hj2
        by_cases hid : j.id = job.id
        · rw [if_pos hid] at hj2
          have hjeq : j = job := by
            rw [← findJob_some_id hj, hid, findJob_some_id hfind, hfind] at hj
            injection hj with h
            exact h.symm
          subst hj2
          refine ⟨?_, ?_, ?_, ?_⟩
          · show followsEdges j.status "failed"
            rw [hjeq, hproc]
            exact Or.inr (Or.inl (by decide))
          · intro h
            rw [hjeq, hproc] at h
            rcases h with h | h <;> exact absurd h (by decide)
          · intro l hl
            show job.target_language = some l
            rw [← hjeq]
            exact hl
          · intro hne
            exact absurd (by rw [hjeq]) hne
        · rw [if_neg hid] at hj2
          subst hj2
          exact evolution_stutter

theorem st_precheck_none {s : AppState} {jid : Nat} (h : findJob s jid = none) :
    st_precheck s jid = .error .jobNotFound := by
  simp [st_precheck, h]

theorem st_precheck_not_uploaded {s : AppState} {jid : Nat} {j : TranslationJob}
    (hj : findJob s jid = some j) (hst : j.status ≠ "uploaded") :
    st_precheck s jid = .error (.invalidTransition j.status) := by
  simp [st_precheck, hj, hst]

theorem st_precheck_uploaded {s : AppState} {jid : Nat} {j : TranslationJob}
    (hj : findJob s jid = some j) (hst : j.status = "uploaded") :
    st_precheck s jid = .ok j := by
  simp [st_precheck, hj, hst]

theorem start_translation_unfold (key : String) (s : AppState) (jid : Nat)
    (lang : String) (c : Bool) :
    start_translation (some key) s (some (jid, lang)) c =
      match st_precheck s jid with
      | .error e => (.error e, s)
      | .ok job =>
        if c then
          (.ok (st_commitSuccess s job lang).1, (st_commitSuccess s job lang).2)
        else
          (.error (.translationFailedToStart (st_commitFailure s job lang).1),
            (st_commitFailure s job lang).2) := by
  rfl

/-! ## Claim theorems -/

/-- C1: for every job and every sequence of core operations starting from
the fresh database, the job's status is always one of `uploaded`,
`processing`, `completed`, `failed`, and one further operation changes it
only along the lifecycle graph `uploaded → processing → completed|failed`
(possibly two consecutive edges inside one operation: the
synchronous-failure path of `start_translation` assigns `"processing"` at
line 215 and then `"failed"` at line 231); a terminal status is never
changed again.  `ApplyProviderOutcome` is modelled from the spec since
the source contains no implementation of it. -/
theorem c1_lifecycle_state_machine (ops : List Op) (op : Op) (jid : Nat)
    (j j' : TranslationJob)
    (hj : findJob (run initState ops) jid = some j)
    (hj' : findJob (run initState (ops ++ [op])) jid = some j') :
    j.status ∈ okStatuses ∧ j'.status ∈ okStatuses ∧
      followsEdges j.status j'.status ∧
      ((j.status = "completed" ∨ j.status = "failed") → j' = j) := by
  have hwf := run_initState_wf ops
  have hwfAfter := run_initState_wf (ops ++ [op])
  have hmem := (hwf.1 j (findJob_mem hj)).1
  have hmemAfter := (hwfAfter.1 j' (findJob_mem hj')).1
  rw [run_append_op] at hj'
  have hev := step_job_evolution hwf op hj hj'
  exact ⟨hmem, hmemAfter, hev.1, hev.2.1⟩

/-- Witness for C1 at a concrete run: the fresh job of `exState` moves
from `"uploaded"` to `"processing"` under a translate request. -/
theorem c1_lifecycle_state_machine_witness :
    exJobUploaded.status ∈ okStatuses ∧ exJobProcessing.status ∈ okStatuses ∧
      followsEdges exJobUploaded.status exJobProcessing.status ∧
      ((exJobUploaded.status = "completed" ∨ exJobUploaded.status = "failed") →
        exJobProcessing = exJobUploaded) :=
  c1_lifecycle_state_machine exOps
    (Op.requestTranslation (some "key") (some (1, "es")) true) 1
    exJobUploaded exJobProcessing rfl rfl

/-- C4: on every reachable state, a job's `target_language` is null iff
its status is `"uploaded"`; once set to `some l` no operation changes it;
and the only operation that ever changes it is a `requestTranslation`
(`start_translation`) naming that job, which assigns the requested
language at the (attempted) `uploaded → processing` transition, landing
in `"processing"`, or in `"failed"` when the commit raises after the
assignment of lines 215-216.  `ApplyProviderOutcome` is modelled from
the spec since the source contains no implementation of it. -/
theorem c4_target_language_set_once (ops : List Op) (op : Op) (jid : Nat)
    (j j' : TranslationJob)
    (hj : findJob (run initState ops) jid = some j)
    (hj' : findJob (run initState (ops ++ [op])) jid = some j') :
    (j.target_language = none ↔ j.status = "uploaded") ∧
      (∀ l, j.target_language = some l → j'.target_language = some l) ∧
      (j'.target_language ≠ j.target_language →
        ∃ key lang c, op = Op.requestTranslation (some key) (some (jid, lang)) c ∧
          j.status = "uploaded" ∧ j'.target_language = some lang ∧
          (j'.status = "processing" ∨ j'.status = "failed")) := by
  have hwf := run_initState_wf ops
  have hiff := (hwf.1 j (findJob_mem hj)).2
  rw [run_append_op] at hj'
  have hev := step_job_evolution hwf op hj hj'
  exact ⟨hiff, hev.2.2.1, hev.2.2.2⟩

/-- Witness for C4 at a concrete run: the fresh job of `exState` under a
`getJob` read. -/
theorem c4_target_language_set_once_witness :
    (exJobUploaded.target_language = none ↔ exJobUploaded.status = "uploaded") ∧
      (∀ l, exJobUploaded.target_language = some l →
        exJobUploaded.target_language = some l) ∧
      (exJobUploaded.target_language ≠ exJobUploaded.target_language →
        ∃ key lang c, Op.getJob 1 = Op.requestTranslation (some key) (some (1, lang)) c ∧
          exJobUploaded.status = "uploaded" ∧ exJobUploaded.target_language = some lang ∧
          (exJobUploaded.status = "processing" ∨ exJobUploaded.status = "failed")) :=
  c4_target_language_set_once exOps (Op.getJob 1) 1
    exJobUploaded exJobUploaded rfl rfl

/-- C3: with the API key configured and both fields present,
`start_translation` on a missing job answers `jobNotFound`, and on a job
whose status is not `"uploaded"` answers `invalidTransition` carrying the
job's actual current status; in both cases the returned state is the
input state unchanged — no job mutation and no provider submission (the
`submissions` counter is part of the state). -/
theorem c3_precondition_checks (key : String) (s : AppState) (jid : Nat)
    (lang : String) (c : Bool) :
    (findJob s jid = none →
        start_translation (some key) s (some (jid, lang)) c =
          (.error .jobNotFound, s)) ∧
    (∀ j, findJob s jid = some j → j.status ≠ "uploaded" →
        start_translation (some key) s (some (jid, lang)) c =
          (.error (.invalidTransition j.status), s)) := by
  constructor
  · intro hnone
    rw [start_translation_unfold, st_precheck_none hnone]
  · intro j hj hst
    rw [start_translation_unfold, st_precheck_not_uploaded hj hst]

/-- Witness for C3: a nonexistent job id on the empty database, and job 1
of `exStateProcessing`, already in `"processing"`. -/
theorem c3_precondition_checks_witness :
    start_translation (some "key") initState (some (7, "es")) true =
      (.error .jobNotFound, initState) ∧
    start_translation (some "key") exStateProcessing (some (1, "fr")) true =
      (.error (.invalidTransition "processing"), exStateProcessing) := by
  constructor
  · exact (c3_precondition_checks "key" initState 7 "es" true).1 rfl
  · exact (c3_precondition_checks "key" exStateProcessing 1 "fr" true).2
      exJobProcessing rfl (by decide)

/-- C5: when the commit inside the `try` block of `start_translation`
raises (the synchronous submission failure), the job is stored with
status `"failed"` (not `"uploaded"`), and the caller receives the 500
`translationFailedToStart` error carrying exactly that final job record
(source lines 230-238). -/
theorem c5_submission_failure_ends_failed (key lang : String) (s : AppState)
    (jid : Nat) (j : TranslationJob)
    (hj : findJob s jid = some j) (hst : j.status = "uploaded") :
    start_translation (some key) s (some (jid, lang)) false =
      (.error (.translationFailedToStart
          { j with status := "failed", target_language := some lang }),
        setJob s { j with status := "failed", target_language := some lang }) ∧
    findJob (setJob s { j with status := "failed", target_language := some lang })
        jid = some { j with status := "failed", target_language := some lang } := by
  constructor
  · rw [start_translation_unfold, st_precheck_uploaded hj hst]
    rfl
  · rw [findJob_setJob_of_found _ hj]
    simp

/-- Witness for C5: the fresh job of `exState` with a failing commit. -/
theorem c5_submission_failure_ends_failed_witness :
    start_translation (some "key") exState (some (1, "es")) false =
      (.error (.translationFailedToStart
          { exJobUploaded with status := "failed", target_language := some "es" }),
        setJob exState
          { exJobUploaded with status := "failed", target_language := some "es" }) ∧
    findJob (setJob exState
          { exJobUploaded with status := "failed", target_language := some "es" }) 1 =
      some { exJobUploaded with status := "failed", target_language := some "es" } :=
  c5_submission_failure_ends_failed "key" "es" exState 1 exJobUploaded rfl rfl

/-- C10: the `HEYGEN_API_KEY` check is the first statement of the route
(source lines 186-190): with the key unset, every `start_translation`
call — any request body, any job id including nonexistent ones, any
commit outcome — returns the configuration error and the state
completely unchanged, so no `jobNotFound` is ever reached. -/
theorem c10_missing_api_key_rejected_first (s : AppState)
    (data? : Option (Nat × String)) (c : Bool) :
    start_translation none s data? c = (.error .heygenNotConfigured, s) := rfl

/-- C8: `upload_file` with a user id that matches no `User` row answers
`userNotFound` and leaves the state unchanged (no job created); with an
existing user and a successfully stored file it appends exactly one new
job with status `"uploaded"` and null `target_language`, bumping only
the job counter — `users` and the provider-submission count are
untouched. -/
theorem c8_register_upload (s : AppState) (uid : Nat) (fn : String)
    (hfn : fn ≠ "") :
    (findUser s uid = none →
        upload_file s (some uid) (some fn) true = (.error .userNotFound, s)) ∧
    (∀ u, findUser s uid = some u →
        upload_file s (some uid) (some fn) true =
          (.ok { id := s.nextJobId, user_id := uid, original_filename := fn,
                  target_language := none, status := "uploaded" },
            { s with
              jobs := s.jobs ++
                [{ id := s.nextJobId, user_id := uid, original_filename := fn,
                   target_language := none, status := "uploaded" }]
              nextJobId := s.nextJobId + 1 })) := by
  constructor
  · intro h
    simp [upload_file, h]
  · intro u hu
    simp [upload_file, hu, hfn]

/-- Witness for C8: user 1 does not exist in the empty database; it does
exist in `exUserState`. -/
theorem c8_register_upload_witness :
    upload_file initState (some 1) (some "clip.mp4") true =
      (.error .userNotFound, initState) ∧
    upload_file exUserState (some 1) (some "clip.mp4") true =
      (.ok { id := exUserState.nextJobId, user_id := 1,
              original_filename := "clip.mp4",
              target_language := none, status := "uploaded" },
        { exUserState with
          jobs := exUserState.jobs ++
            [{ id := exUserState.nextJobId, user_id := 1,
               original_filename := "clip.mp4",
               target_language := none, status := "uploaded" }]
          nextJobId := exUserState.nextJobId + 1 }) := by
  constructor
  · exact (c8_register_upload initState 1 "clip.mp4" (by decide)).1 rfl
  · exact (c8_register_upload exUserState 1 "clip.mp4" (by decide)).2
      { id := 1, email := "a@b.c" } rfl

/-- C2 is falsified by the code: the supported-language set is advertised
(source lines 86 and 197) but never enforced — `start_translation` has no
membership check and the code has no unsupported-language error at all.
On the reachable state `exState`, whose job 1 is in status `"uploaded"`,
requesting translation toward `"xx"` (not in the supported set) succeeds,
moves the job to `"processing"` with `target_language = "xx"`, and
changes the state rather than leaving it untouched. -/
theorem c2_unsupported_language_counterexample :
    "xx" ∉ supported_languages ∧
    (start_translation (some "key") exState (some (1, "xx")) true).1 =
      .ok { id := 1, user_id := 1, original_filename := "clip.mp4",
            target_language := some "xx", status := "processing" } ∧
    (start_translation (some "key") exState (some (1, "xx")) true).2 ≠ exState := by
  refine ⟨by decide, rfl, by decide⟩

/-- C2 (amended): `start_translation` performs no supported-language
check: with the key configured, for a job in status `"uploaded"` and any
target language whatsoever — in the supported set or not — the request
succeeds, stores the language and moves the job to `"processing"`. -/
theorem c2_amended_no_language_validation (key lang : String) (s : AppState)
    (jid : Nat) (j : TranslationJob)
    (hj : findJob s jid = some j) (hst : j.status = "uploaded") :
    start_translation (some key) s (some (jid, lang)) true =
      (.ok { j with status := "processing", target_language := some lang },
        { setJob s { j with status := "processing", target_language := some lang } with
          submissions := s.submissions + 1 }) := by
  rw [start_translation_unfold, st_precheck_uploaded hj hst]
  rfl

/-- Witness for the amended C2: the unsupported language `"xx"` is
accepted on the fresh job of `exState`. -/
theorem c2_amended_no_language_validation_witness :
    start_translation (some "key") exState (some (1, "xx")) true =
      (.ok { exJobUploaded with status := "processing", target_language := some "xx" },
        { setJob exState
            { exJobUploaded with status := "processing", target_language := some "xx" } with
          submissions := exState.submissions + 1 }) :=
  c2_amended_no_language_validation "key" "xx" exState 1 exJobUploaded rfl rfl

theorem apply_provider_outcome_idem (s : AppState) (jid : Nat)
    (o oB : ProviderOutcome) :
    apply_provider_outcome (apply_provider_outcome s jid o).2 jid oB =
      apply_provider_outcome s jid o := by
  cases hf : findJob s jid with
  | none =>
    have h1 : apply_provider_outcome s jid o = (.error .jobNotFound, s) := by
      simp [apply_provider_outcome, hf]
    rw [h1]
    simp [apply_provider_outcome, hf]
  | some job =>
    by_cases hterm : job.status = "completed" ∨ job.status = "failed"
    · have h1 : apply_provider_outcome s jid o = (.ok job, s) := by
        simp [apply_provider_outcome, hf, hterm]
      rw [h1]
      simp [apply_provider_outcome, hf, hterm]
    · by_cases hproc : job.status = "processing"
      · cases o with
        | completed =>
          have h1 : apply_provider_outcome s jid ProviderOutcome.completed =
              (.ok { job with status := "completed" },
                setJob s { job with status := "completed" }) := by
            simp [apply_provider_outcome, hf, hterm, hproc]
          rw [h1]
          have hf2 : findJob (setJob s { job with status := "completed" }) jid =
              some { job with status := "completed" } := by
            rw [findJob_setJob_of_found _ hf]
            simp
          simp [apply_provider_outcome, hf2]
        | failed r =>
          have h1 : apply_provider_outcome s jid (ProviderOutcome.failed r) =
              (.ok { job with status := "failed" },
                setJob s { job with status := "failed" }) := by
            simp [apply_provider_outcome, hf, hterm, hproc]
          rw [h1]
          have hf2 : findJob (setJob s { job with status := "failed" }) jid =
              some { job with status := "failed" } := by
            rw [findJob_setJob_of_found _ hf]
            simp
          simp [apply_provider_outcome, hf2]
      · have h1 : apply_provider_outcome s jid o =
            (.error (.invalidTransition job.status), s) := by
          simp [apply_provider_outcome, hf, hterm, hproc]
        rw [h1]
        simp [apply_provider_outcome, hf, hterm, hproc]

/-- C6: a provider outcome delivered for a job already in a terminal
state (`"completed"` or `"failed"`) is accepted idempotently: it returns
the already-terminal job with no error and no state change, and a second
delivery returns exactly what the first returned.  `ApplyProviderOutcome`
is modelled from the spec (section 4.2 operation 3): the source contains
no implementation of it. -/
theorem c6_duplicate_outcome_idempotent (s : AppState) (jid : Nat)
    (j : TranslationJob) (o oB : ProviderOutcome)
    (hj : findJob s jid = some j)
    (ht : j.status = "completed" ∨ j.status = "failed") :
    apply_provider_outcome s jid o = (.ok j, s) ∧
    apply_provider_outcome (apply_provider_outcome s jid o).2 jid oB =
      apply_provider_outcome s jid o := by
  constructor
  · simp [apply_provider_outcome, hj, ht]
  · exact apply_provider_outcome_idem s jid o oB

/-- Witness for C6: job 1 of `exStateCompleted` is `"completed"`; a late
`failed` outcome is ignored. -/
theorem c6_duplicate_outcome_idempotent_witness :
    apply_provider_outcome exStateCompleted 1 (ProviderOutcome.failed "late") =
      (.ok exJobCompleted, exStateCompleted) ∧
    apply_provider_outcome
        (apply_provider_outcome exStateCompleted 1 (ProviderOutcome.failed "late")).2
        1 ProviderOutcome.completed =
      apply_provider_outcome exStateCompleted 1 (ProviderOutcome.failed "late") :=
  c6_duplicate_outcome_idempotent exStateCompleted 1 exJobCompleted
    (ProviderOutcome.failed "late") ProviderOutcome.completed rfl (Or.inl rfl)

/-- C9: on every reachable state the user emails are pairwise distinct;
`create_user` with an email already present answers `userAlreadyExists`
and returns the state unchanged, and with a fresh email appends exactly
one new user carrying that email. -/
theorem c9_unique_contact (ops : List Op) (email : String) :
    (run initState ops).users.Pairwise (fun a b => a.email ≠ b.email) ∧
    (∀ u ∈ (run initState ops).users, u.email = email →
        create_user (run initState ops) (some email) =
          (.error .userAlreadyExists, run initState ops)) ∧
    ((∀ u ∈ (run initState ops).users, u.email ≠ email) →
        create_user (run initState ops) (some email) =
          (.ok { id := (run initState ops).nextUserId, email := email },
            { run initState ops with
              users := (run initState ops).users ++
                [{ id := (run initState ops).nextUserId, email := email }]
              nextUserId := (run initState ops).nextUserId + 1 })) := by
  refine ⟨(run_initState_wf ops).2, ?_, ?_⟩
  · intro u hu hue
    cases hfind : (run initState ops).users.find? (fun v => v.email = email) with
    | none =>
      have hx := List.find?_eq_none.mp hfind u hu
      simp [hue] at hx
    | some v =>
      simp [create_user, hfind]
  · intro hall
    have hfind : (run initState ops).users.find? (fun v => v.email = email) = none := by
      rw [List.find?_eq_none]
      intro x hx
      simpa using hall x hx
    simp [create_user, hfind]

/-- Witness for C9: creating `"a@b.c"` twice in a row fails the second
time and leaves the state unchanged. -/
theorem c9_unique_contact_witness :
    create_user (run initState [Op.createUser (some "a@b.c")]) (some "a@b.c") =
      (.error .userAlreadyExists, run initState [Op.createUser (some "a@b.c")]) :=
  (c9_unique_contact [Op.createUser (some "a@b.c")] "a@b.c").2.1
    { id := 1, email := "a@b.c" } (by decide) rfl

/-- C7 is a genuine bug in the code (spec section 9 itself flags the
missing per-job guard): `start_translation` has no lock or atomic
compare-and-set, so two concurrent requests for the same fresh job can
both run the read-and-check of lines 204-211 before either commits.
In that interleaving on `exState` both callers observe the `uploaded`
precondition as true, both succeed, and the provider-submission point is
reached twice — the claim requires exactly one success and one
`invalidTransition`. -/
theorem c7_unguarded_race_double_submission :
    (raceTwoStarts exState 1 "es" "fr").1 =
      .ok { id := 1, user_id := 1, original_filename := "clip.mp4",
            target_language := some "es", status := "processing" } ∧
    (raceTwoStarts exState 1 "es" "fr").2.1 =
      .ok { id := 1, user_id := 1, original_filename := "clip.mp4",
            target_language := some "fr", status := "processing" } ∧
    (raceTwoStarts exState 1 "es" "fr").2.2.submissions = 2 :=
  ⟨rfl, rfl, rfl⟩
